import Mathlib

/-!
A verification development for the Notion + Git bridge agent.

This file gives a shallow embedding of the agent orchestration engine:
the recursive traversal algorithms hosted by the tool server
(`mcp_server.py`: document content extraction, embedded-database
discovery, repository-tree flattening, database-row decoding), the tool
dispatch boundary (`call_tool` and the client-side `_call` wrapper), and
the bounded iteration loop with citation aggregation (`agents.py`,
`MCPAgent.run`).  External effects (HTTP fetches, the completion
service, `json.loads` / `json.dumps`) are modelled as explicit oracle
parameters or as outcome-carrying tree nodes; everything else is
translated directly from the source.  Theorems settling the specified
properties follow the definitions.
-/

namespace NotionGitBridge

/-! ## Document content extraction (`notion_get_page_content`) -/

/-- A Notion block as seen by the content walk of
`notion_get_page_content`: its rich-text plain-text segments
(`b.get(b["type"], {}).get("rich_text", [])`, one string per segment),
and its children status.  `leaf`: `has_children` is false.  `parent`:
`has_children` is true and the recursive children fetch returns the
given list.  `parentBad`: `has_children` is true but the children fetch
returns a non-200 status, which the recursive `walk` turns into `[]`. -/
inductive Block where
  | leaf (rich : List String)
  | parent (rich : List String) (kids : List Block)
  | parentBad (rich : List String)

/-- The text a single block contributes: `" ".join(...)` of its
plain-text segments, appended only when the `rich_text` list is
non-empty (`if rich:`). -/
def textOf (rich : List String) : List String :=
  if rich = [] then [] else [String.intercalate " " rich]

mutual
/-- One pass of the `for b in blocks` body of `walk` in
`notion_get_page_content`, processing one block fetched at recursion
depth `depth`: collect the block's own text, then, when `has_children`,
splice in `walk(children_url, depth + 1)` — which returns `[]` as soon
as the new depth exceeds 3, and also returns `[]` when the children
fetch fails (`parentBad`; the depth guard and the status guard both
yield `[]` there). -/
def walkBlock (depth : Nat) : Block → List String
  | .leaf rich => textOf rich
  | .parentBad rich => textOf rich
  | .parent rich kids =>
      textOf rich ++ (if depth + 1 > 3 then [] else walkBlocks (depth + 1) kids)

/-- The `for b in blocks` loop of `walk`, in document order. -/
def walkBlocks (depth : Nat) : List Block → List String
  | [] => []
  | b :: rest => walkBlock depth b ++ walkBlocks depth rest
end

/-- The fragment list the body of `notion_get_page_content` binds to
`content`: the whole walk started from the page's own children fetch
(`rootFetch` is that fetch's outcome; a non-200 root status yields no
fragments). -/
def pageFragments (rootFetch : Except Unit (List Block)) : List String :=
  match rootFetch with
  | .error _ => []
  | .ok blocks => walkBlocks 0 blocks

/-- Result envelope of `notion_get_page_content`: `{"success": True,
"content": ...}` or `{"success": False}`. -/
structure PageContentResult where
  success : Bool
  content : Option String
deriving DecidableEq

/-- `notion_get_page_content`: join every collected fragment with
newlines and report success exactly when the fragment list is truthy
(non-empty). -/
def notion_get_page_content (rootFetch : Except Unit (List Block)) :
    PageContentResult :=
  let content := pageFragments rootFetch
  if content = [] then ⟨false, none⟩
  else ⟨true, some (String.intercalate "\n" content)⟩

mutual
/-- Delete everything strictly more than `n` levels below a block:
at bound `0` the block keeps its own text but loses its children. -/
def pruneBlock (n : Nat) : Block → Block
  | .leaf rich => .leaf rich
  | .parentBad rich => .parentBad rich
  | .parent rich kids =>
      .parent rich (match n with
        | 0 => []
        | m + 1 => pruneBlocks m kids)

/-- `pruneBlock` mapped over a level of siblings. -/
def pruneBlocks (n : Nat) : List Block → List Block
  | [] => []
  | b :: rest => pruneBlock n b :: pruneBlocks n rest
end

/-- A document fixture with nesting depth 5: the page's children sit at
depth 0 and carry `"L0"`, with one nested child chain carrying `"L1"`,
`"L2"`, `"L3"`, and finally `"L4"` strictly below depth 3. -/
def fixture5 : List Block :=
  [.parent ["L0"]
    [.parent ["L1"]
      [.parent ["L2"]
        [.parent ["L3"]
          [.leaf ["L4"]]]]]]

/-! ## Embedded-database discovery (`notion_get_db_from_page`) -/

/-- The classification-relevant data of one block met by
`find_databases_recursive`: a `child_database` block (its own block id,
and the optional `title` of its `child_database` payload), a
`linked_database` block (its own block id, and the optional
`database_id` of its payload), or any other block type. -/
inductive NKind where
  | childDb (blockId : String) (title : Option String)
  | linkedDb (blockId : String) (databaseId : Option String)
  | plain (blockId : String)
deriving DecidableEq

/-- A block tree node for the database search: its kind plus its
children status (`node`: `has_children` with a successful children
fetch; `nodeNoKids`: `has_children` false; `nodeBadKids`:
`has_children` true but the children fetch returns non-200, which the
search logs and turns into `[]`). -/
inductive NBlock where
  | node (kind : NKind) (kids : List NBlock)
  | nodeNoKids (kind : NKind)
  | nodeBadKids (kind : NKind)

/-- One entry of the `databases` list collected by
`find_databases_recursive`. -/
structure DbMatch where
  database_id : String
  title : String
  type : String
deriving DecidableEq

/-- Classification of a single block, exactly as the loop body appends:
a `child_database` block contributes its own block id with
`db_info.get("title", "Untitled Database")`; a `linked_database` block
contributes `db_info.get("database_id", block_id_inner)` with the fixed
title `"Linked Database"`; other block types contribute nothing. -/
def matchOf : NKind → List DbMatch
  | .childDb blockId title =>
      [⟨blockId, title.getD "Untitled Database", "child_database"⟩]
  | .linkedDb blockId databaseId =>
      [⟨databaseId.getD blockId, "Linked Database", "linked_database"⟩]
  | .plain _ => []

mutual
/-- One pass of the `for block in blocks` body of
`find_databases_recursive` at depth `depth`: append this block's own
match (if any), then, when `has_children`, splice in the recursive
search at `depth + 1` — which returns `[]` as soon as the new depth
exceeds `max_depth = 3`, and also when the children fetch fails. -/
def findDbsBlock (depth : Nat) : NBlock → List DbMatch
  | .nodeNoKids kind => matchOf kind
  | .nodeBadKids kind => matchOf kind
  | .node kind kids =>
      matchOf kind ++ (if depth + 1 > 3 then [] else findDbsBlocks (depth + 1) kids)

/-- The `for block in blocks` loop of `find_databases_recursive`, in
fetch order. -/
def findDbsBlocks (depth : Nat) : List NBlock → List DbMatch
  | [] => []
  | b :: rest => findDbsBlock depth b ++ findDbsBlocks depth rest
end

/-- Result envelope of `notion_get_db_from_page`: on success the fields
of the first match are promoted (`database_id`, `title`, `type`) next
to `total_found` and the full `all_databases` list; on zero matches a
failure with an explanatory message. -/
structure DbFromPageResult where
  success : Bool
  database_id : Option String
  title : Option String
  type : Option String
  total_found : Option Nat
  all_databases : List DbMatch
  error : Option String
deriving DecidableEq

/-- `notion_get_db_from_page`: run `find_databases_recursive` from the
page's own children fetch (depth 0; a failed or erroring root fetch
yields `[]`), then branch on whether any database was found. -/
def notion_get_db_from_page (root : Except Unit (List NBlock)) :
    DbFromPageResult :=
  let databases := match root with
    | .error _ => []
    | .ok blocks => findDbsBlocks 0 blocks
  match databases with
  | [] =>
      ⟨false, none, none, none, none, [],
        some "No inline or linked database found in this page"⟩
  | first :: restDbs =>
      ⟨true, some first.database_id, some first.title, some first.type,
        some (first :: restDbs).length, first :: restDbs, none⟩

/-! ## Database-row decoding (`notion_query_database`) -/

/-- The shape-relevant content of one row returned by the database
query.  `task`/`name`: `none` when the `"Task"`/`"Name"` property is
absent (or carries no `title` key); `some ts` when present, with `ts`
the `plain_text` of each title item.  `status`/`feature`: `none` when
the property is absent, `some none` when present with a null `select`,
`some (some s)` when present with a select named `s`. -/
structure NRow where
  task : Option (List String)
  name : Option (List String)
  status : Option (Option String)
  feature : Option (Option String)
deriving DecidableEq

/-- One entry of the `tasks` list built by `notion_query_database`. -/
structure TaskItem where
  task : String
  status : String
  feature : String
deriving DecidableEq

/-- The per-row body of the extraction loop of `notion_query_database`
("safe property access"): take `Task`'s first title text when `"Task"`
is present with a truthy title list, else `Name`'s, else `"Unknown"`;
take the select name for `Status`/`Feature` when present and non-null,
else `"Unknown"`.  The function is total: no row shape raises. -/
def decodeRow (row : NRow) : TaskItem :=
  let task_name :=
    match row.task with
    | some (t :: _) => t
    | _ =>
      match row.name with
      | some (t :: _) => t
      | _ => "Unknown"
  let status :=
    match row.status with
    | some (some s) => s
    | _ => "Unknown"
  let feature_name :=
    match row.feature with
    | some (some f) => f
    | _ => "Unknown"
  ⟨task_name, status, feature_name⟩

/-- Result envelope of `notion_query_database`. -/
structure QueryDbResult where
  success : Bool
  tasks : List TaskItem
  count : Option Nat
  error : Option String
deriving DecidableEq

/-- `notion_query_database` after the query request: a non-200 response
(status code and body) becomes `{"success": False, "error": "HTTP
<code>: <text>"}`; otherwise every row is decoded and the result
carries the task list together with `count = len(tasks)`. -/
def notion_query_database (rows : Except (Nat × String) (List NRow)) :
    QueryDbResult :=
  match rows with
  | .error (code, text) =>
      ⟨false, [], none, some ("HTTP " ++ toString code ++ ": " ++ text)⟩
  | .ok rs =>
      let tasks := rs.map decodeRow
      ⟨true, tasks, some tasks.length, none⟩

/-! ## Repository-tree flattening (`github_list_repo`) -/

/-- Python `str.lstrip("/")`: drop every leading slash. -/
def lstripSlash (s : String) : String :=
  ⟨s.data.dropWhile (· = '/')⟩

/-- One entry of the listing of a repository path, with the fetch
outcome of a subdirectory embedded: `file`; `dirOk` (the recursive
fetch of the subdirectory succeeds with the given entries); `dirBad`
(the recursive fetch of the subdirectory returns a non-200 status with
the given body). -/
inductive RepoEntry where
  | file (name : String)
  | dirOk (name : String) (entries : List RepoEntry)
  | dirBad (name : String) (error : String)

/-- One element of the flattened `result` list of `github_list_repo`. -/
structure FileItem where
  name : String
  path : String
  type : String
deriving DecidableEq

mutual
/-- The `for item in items` body of `github_list_repo` for one entry
under `path`: a file is emitted immediately with `full_path =
f"{path}/{item.name}".lstrip("/")`; a directory is recursed into, its
items spliced in when the recursive call succeeds and skipped
otherwise (the `if sub.get("success")` guard; see
`flattenEntry_dirOk_eq` / `flattenEntry_dirBad_eq` below for the
correspondence with the recursive `github_list_repo` call). -/
def flattenEntry (path : String) : RepoEntry → List FileItem
  | .file name => [⟨name, lstripSlash (path ++ "/" ++ name), "file"⟩]
  | .dirOk name entries =>
      flattenEntries (lstripSlash (path ++ "/" ++ name)) entries
  | .dirBad _ _ => []

/-- The `for item in items` loop of `github_list_repo`. -/
def flattenEntries (path : String) : List RepoEntry → List FileItem
  | [] => []
  | e :: rest => flattenEntry path e ++ flattenEntries path rest
end

/-- Result envelope of `github_list_repo`. -/
structure ListRepoResult where
  success : Bool
  error : Option String
  items : List FileItem
deriving DecidableEq

/-- `github_list_repo` on a path whose own listing fetch has the given
outcome: a non-200 root fetch is `{"success": False, "error": r.text}`;
otherwise the flattened items under a success envelope. -/
def github_list_repo (path : String)
    (listing : Except String (List RepoEntry)) : ListRepoResult :=
  match listing with
  | .error e => ⟨false, some e, []⟩
  | .ok items => ⟨true, none, flattenEntries path items⟩

/-! ## The agent loop (`agents.py`, `MCPAgent`) -/

/-- A decoded tool-call argument mapping (string key to string value —
the handlers of this system take only string-valued arguments), with
Python-dict `get` semantics via `List.lookup`. -/
abbrev Args := List (String × String)

/-- One entry of `message.tool_calls`: its id, function name, and the
raw JSON text of its arguments. -/
structure ToolCall where
  id : String
  name : String
  arguments : String
deriving DecidableEq

/-- One entry of the `messages` conversation log. -/
inductive Message where
  | system (content : String)
  | user (content : String)
  | assistant (content : Option String) (toolCalls : List ToolCall)
  | tool (tool_call_id : String) (content : String)

/-- The outcome of one `client.chat.completions.create` call: a raised
transport exception (carrying `str(e)`), or a returned assistant
message with optional text and a possibly empty tool-call list (`None`
and `[]` behave identically under `if not message.tool_calls`). -/
inductive CompletionEvent where
  | raise (msg : String)
  | reply (content : Option String) (toolCalls : List ToolCall)

/-- The result dictionary the agent-side `_call` yields, at the
granularity the run loop observes: the `success` flag it reads through
`result.get("success")`, and the `error` / `content` fields the
failure and fallback paths of `_call` populate. -/
structure ToolResult where
  success : Bool
  error : Option String
  content : Option String
deriving DecidableEq

/-- The outcome of one `session.call_tool` invocation: a raised
exception (carrying `str(e)`), or a returned `result.content` list of
text payloads. -/
inductive SessionOutcome where
  | raise (msg : String)
  | contents (texts : List String)

/-- The environment of one run: the completion service as a function of
the conversation so far, the `json.loads` oracle on tool-call argument
text, the `session.call_tool` transport, the `json.loads` oracle on
tool result payloads (`none` encodes a `JSONDecodeError`), and the
`json.dumps` oracle used to serialize a result into a tool message. -/
structure RunEnv where
  completions : List Message → CompletionEvent
  decodeArgs : String → Except String Args
  session : String → Args → SessionOutcome
  decodePayload : String → Option ToolResult
  dumps : ToolResult → String

/-- `MCPAgent._call`: call the tool through the session, catching every
exception into `{"success": False, "error": str(e)}`; on a non-empty
content list decode the first payload, falling back to
`{"success": True, "content": text}` when decoding fails; an empty
content list is `{"success": False, "error": "No content returned"}`. -/
def MCPAgent.call (session : String → Args → SessionOutcome)
    (decodePayload : String → Option ToolResult)
    (name : String) (args : Args) : ToolResult :=
  match session name args with
  | .raise e => ⟨false, some e, none⟩
  | .contents [] => ⟨false, some "No content returned", none⟩
  | .contents (text :: _) =>
    match decodePayload text with
    | some r => r
    | none => ⟨true, none, some text⟩

/-- The mutable state of one run: the conversation, the two provenance
sets (modelled as duplicate-free lists; only their sorted rendering is
ever observed), and the number of completion-service calls made. -/
structure RunState where
  messages : List Message
  notion_pages : List String
  git_files : List String
  calls : Nat

/-- Python `set.add` on the insertion-ordered duplicate-free list
model. -/
def addSource (s : List String) (x : String) : List String :=
  if x ∈ s then s else s ++ [x]

/-- The source-tracking branch run after each successful tool result:
`notion_get_page_content` records `function_args.get("page_id",
"Unknown Page")`, `notion_query_database` records the fixed label
`"Project Database"`, and `github_get_file` records
`function_args.get("path", "unknown")`. -/
def trackSources (name : String) (args : Args) (result : ToolResult)
    (st : RunState) : RunState :=
  if result.success then
    if name = "notion_get_page_content" then
      { st with notion_pages :=
          addSource st.notion_pages ((args.lookup "page_id").getD "Unknown Page") }
    else if name = "notion_query_database" then
      { st with notion_pages := addSource st.notion_pages "Project Database" }
    else if name = "github_get_file" then
      { st with git_files :=
          addSource st.git_files ((args.lookup "path").getD "unknown") }
    else st
  else st

/-- The `for tool_call in message.tool_calls` dispatch loop: decode the
argument text (`json.loads` — a failure raises out of the loop, which
`.error` propagates to the iteration-level handler), call the tool,
track sources, append the tool message with the serialized result, and
continue with the next request. -/
def dispatchCalls (env : RunEnv) : RunState → List ToolCall → Except String RunState
  | st, [] => .ok st
  | st, tc :: rest =>
    match env.decodeArgs tc.arguments with
    | .error e => .error e
    | .ok args =>
      let result := MCPAgent.call env.session env.decodePayload tc.name args
      let st1 := trackSources tc.name args result st
      let st2 := { st1 with
        messages := st1.messages ++ [.tool tc.id (env.dumps result)] }
      dispatchCalls env st2 rest

/-- Whether `pat` is an initial segment of `cs`. -/
def startsWith : List Char → List Char → Bool
  | _, [] => true
  | [], _ :: _ => false
  | c :: cs, p :: ps => c = p && startsWith cs ps

/-- Whether `pat` occurs inside `cs` (Python `in` on the underlying
character lists). -/
def containsChars : List Char → List Char → Bool
  | [], pat => pat.isEmpty
  | c :: cs, pat => startsWith (c :: cs) pat || containsChars cs pat

/-- Python `needle in hay` on strings. -/
def containsStr (hay needle : String) : Bool :=
  containsChars hay.data needle.data

/-- Number of starting positions at which `pat` occurs inside `cs`. -/
def countSub : List Char → List Char → Nat
  | [], _ => 0
  | c :: cs, pat => (if startsWith (c :: cs) pat then 1 else 0) + countSub cs pat

/-- Number of occurrences of `needle` in `hay` (by starting
position). -/
def countOccur (hay needle : String) : Nat :=
  countSub hay.data needle.data

/-- Insertion step of the sort standing in for Python `sorted` (string
order is lexicographic on code points in both). -/
def insertStr (x : String) : List String → List String
  | [] => [x]
  | y :: ys => if x ≤ y then x :: y :: ys else y :: insertStr x ys

/-- Python `sorted` on a set of strings (the set given as its member
list). -/
def sortStrings (xs : List String) : List String :=
  xs.foldr insertStr []

/-- The `citation_parts` list: a `"Notion pages: ..."` entry when the
page set is non-empty, then a `"Git files: ..."` entry when the file
set is non-empty, each rendering its sorted set comma-separated (files
wrapped in backquotes). -/
def buildCitationParts (pages files : List String) : List String :=
  (if pages = [] then []
   else ["Notion pages: " ++ String.intercalate ", " (sortStrings pages)]) ++
  (if files = [] then []
   else ["Git files: " ++ String.intercalate ", "
      ((sortStrings files).map (fun f => "\x60" ++ f ++ "\x60"))])

/-- The citation step on the final answer: when `citation_parts` is
non-empty and the answer does not contain `"Based on"`, append the
`"**Sources:**"` footer; otherwise return the answer untouched. -/
def appendCitation (pages files : List String) (answer : String) : String :=
  let parts := buildCitationParts pages files
  if parts ≠ [] ∧ containsStr answer "Based on" = false then
    answer ++ ("\n\n**Sources:** " ++ String.intercalate " | " parts)
  else answer

/-- `message.content.strip() if message.content else "No response
generated."` (Python truthiness: `None` and `""` both fall back). -/
def answerText (content : Option String) : String :=
  match content with
  | none => "No response generated."
  | some c => if c = "" then "No response generated." else c.trim

/-- The terminal-path answer: trimmed text plus citation footer. -/
def finalAnswer (pages files : List String) (content : Option String) : String :=
  appendCitation pages files (answerText content)

/-- Which `return` statement of `MCPAgent.run` produced the answer:
the terminal (tool-call-free message) path, the iteration-level
exception handler, or the post-loop iteration-budget fallthrough. -/
inductive ExitKind where
  | terminal
  | aborted
  | exhausted
deriving DecidableEq

/-- A finished run: the returned answer, the number of
completion-service calls made, and which exit path produced it. -/
structure RunOutcome where
  answer : String
  calls : Nat
  exitKind : ExitKind
deriving DecidableEq

/-- The string returned by the iteration-level exception handler,
`f"❌ Error occurred: {e}"`. -/
def errorAnswer (e : String) : String :=
  "❌ Error occurred: " ++ e

/-- The degraded sentinel returned when the loop runs out of
iterations. -/
def maxItersAnswer : String :=
  "❌ Max iterations reached. The analysis may be incomplete."

/-- The `for iteration in range(max_iters)` loop of `MCPAgent.run`,
with `fuel` iterations left: make one completion call (a transport
exception is caught by the iteration handler and returned); append the
assistant message; terminate on a tool-call-free message with the
cited answer; otherwise dispatch every tool call in emission order (a
raising dispatch is caught by the iteration handler and returned) and
loop. -/
def runFrom (env : RunEnv) (st : RunState) : Nat → RunOutcome
  | 0 => ⟨maxItersAnswer, st.calls, .exhausted⟩
  | fuel + 1 =>
    match env.completions st.messages with
    | .raise e => ⟨errorAnswer e, st.calls + 1, .aborted⟩
    | .reply content toolCalls =>
      let st1 : RunState :=
        { st with calls := st.calls + 1,
                  messages := st.messages ++ [.assistant content toolCalls] }
      if toolCalls = [] then
        ⟨finalAnswer st1.notion_pages st1.git_files content, st1.calls, .terminal⟩
      else
        match dispatchCalls env st1 toolCalls with
        | .error e => ⟨errorAnswer e, st1.calls, .aborted⟩
        | .ok st2 => runFrom env st2 fuel

/-- The system instruction the conversation is seeded with. -/
def SYSTEM_PROMPT : String :=
  "You are an expert Notion + Git bridge analyst for \x60themaker00001/Test_MCP\x60.\n\nYOUR MISSION: Cross-reference Notion documentation/tasks with Git repository implementation.\n\nSEARCH STRATEGY:\n1. For task queries:\n   - FIRST: Try \x60notion_list_all_databases()\x60 to see all available databases\n   - OR: Call \x60notion_search(\"Project Details Board\")\x60 to find the page/database\n   - Check if result type is \"database\" - if so, use that ID directly\n   - If result type is \"page\", call \x60notion_get_db_from_page(page_id)\x60 to find embedded database\n   - The function returns ALL databases found with their IDs - use the appropriate one\n   - Call \x60notion_query_database(database_id, feature_filter)\x60 to get tasks\n   \n2. For documentation queries:\n   - Call \x60notion_search(\"Page Name\")\x60 to find documentation pages\n   - Call \x60notion_get_page_content(page_id)\x60 to read content\n   \n3. For Git implementation:\n   - Call \x60github_search_code(\"relevant keywords\")\x60 to find files\n   - Call \x60github_get_file(path)\x60 for each relevant file\n   \n4. Cross-reference analysis:\n   - Compare documented specs with actual code\n   - Identify matches, gaps, and discrepancies\n   - Assess implementation completeness\n\nOUTPUT FORMAT:\n- Use Markdown tables for structured data\n- Include a **Confidence Score** (High/Medium/Low) for each finding\n- Clearly separate \"What Notion Says\" vs \"What Git Shows\"\n- Highlight any mismatches or missing implementations\n- Always cite sources: \"Based on Notion page \x27X\x27 and Git file \x60Y\x60\"\n\nBe thorough, accurate, and critical in your analysis."

/-- `MCPAgent.run(query, max_iters)`: seed the conversation with the
system instruction and the user query, start with empty provenance
sets, and iterate. -/
def MCPAgent.run (env : RunEnv) (query : String) (max_iters : Nat) : RunOutcome :=
  runFrom env ⟨[.system SYSTEM_PROMPT, .user query], [], [], 0⟩ max_iters

/-! ## Server-side dispatch (`mcp_server.py`, `call_tool`) -/

/-- The server's `call_tool` handler over its immutable
`tool_handlers` mapping: an unregistered name raises
`ValueError(f"Unknown tool: {name}")` (the `.error` case); a
registered handler runs synchronously and its result is the single
text payload of the reply, serialized by the given `json.dumps`
oracle. -/
def call_tool (handlers : List (String × (Args → ToolResult)))
    (dumps : ToolResult → String)
    (name : String) (args : Args) : Except String (List String) :=
  match handlers.lookup name with
  | none => .error ("Unknown tool: " ++ name)
  | some h => .ok [dumps (h args)]

/-- The client's view of a server hosting the given handlers: the MCP
server boundary catches a handler-side exception and returns it
in-band as an error result whose single text payload is `str(e)`
(`CallToolResult(isError=True, content=[TextContent(text=str(e))])`),
and `session.call_tool` returns that result to the client without
raising; a successful handler's serialized payloads are delivered the
same way. -/
def sessionOf (handlers : List (String × (Args → ToolResult)))
    (dumps : ToolResult → String) (name : String) (args : Args) :
    SessionOutcome :=
  match call_tool handlers dumps name args with
  | .error e => .contents [e]
  | .ok texts => .contents texts

/-! ## Concrete fixtures and environments used by witnesses and
counterexamples -/

/-- A root listing whose `dir` subdirectory fetch fails. -/
def repoC2 : Except String (List RepoEntry) :=
  .ok [.file "a.txt", .dirBad "dir" "404: Not Found"]

/-- A page tree with two databases: an inline one at depth 0 whose
child block holds a linked one at depth 1, followed by a plain sibling. -/
def blocksC5 : List NBlock :=
  [.node (.childDb "db1" none) [.nodeNoKids (.linkedDb "b2" (some "db2"))],
   .nodeNoKids (.plain "p1")]

/-- A database row whose `Task` property is absent, whose `Name` title
is empty, whose `Status` select is null, and whose `Feature` property
is absent. -/
def rowC10 : NRow := ⟨none, some [], some none, none⟩

/-! ## Theorems -/

theorem pruneBlocks_eq_nil (n : Nat) : pruneBlocks n [] = [] := rfl

theorem pruneBlocks_eq_cons (n : Nat) (b : Block) (rest : List Block) :
    pruneBlocks n (b :: rest) = pruneBlock n b :: pruneBlocks n rest := rfl

/-- The walk never looks below the depth bound: walking a forest whose
content strictly more than `3 - d` levels down has been deleted, from
depth `d`, gives the same fragments as walking the original. -/
theorem walkBlocks_prune_aux :
    ∀ (k d : Nat), 3 - d ≤ k → d ≤ 3 → ∀ bs : List Block,
      walkBlocks d (pruneBlocks (3 - d) bs) = walkBlocks d bs := by
  intro k
  induction k with
  | zero =>
    intro d hk hd bs
    have hd3 : d = 3 := by omega
    subst hd3
    induction bs with
    | nil => rfl
    | cons b rest ih =>
      simp only [pruneBlocks_eq_cons, walkBlocks, ih]
      cases b with
      | leaf rich => rfl
      | parentBad rich => rfl
      | parent rich kids => simp [pruneBlock, walkBlock]
  | succ k ih =>
    intro d hk hd bs
    induction bs with
    | nil => rfl
    | cons b rest ihrest =>
      simp only [pruneBlocks_eq_cons, walkBlocks, ihrest]
      cases b with
      | leaf rich => rfl
      | parentBad rich => rfl
      | parent rich kids =>
        rcases Nat.lt_or_ge d 3 with hlt | hge
        · have h34 : 3 - d = (3 - (d + 1)) + 1 := by omega
          have hif : ¬ (d + 1 > 3) := by omega
          rw [h34]
          simp only [pruneBlock, walkBlock, if_neg hif]
          rw [ih (d + 1) (by omega) (by omega) kids]
        · have hd3 : d = 3 := by omega
          subst hd3
          simp [pruneBlock, walkBlock]

/-- C4: the content walk recurses into a child's descendants with
`depth + 1` and stops once the depth exceeds the fixed bound of 3
(children of a block reached at depth 3 are never visited), so walking
any forest equals walking the forest with everything strictly below
depth 3 from the page's children deleted, and on a fixture nested 5
deep the text below that bound (`"L4"`) never appears in the collected
fragments. -/
theorem claim_C4 (d : Nat) (rich : List String) (kids bs : List Block) :
    (d < 3 → walkBlock d (.parent rich kids) =
      textOf rich ++ walkBlocks (d + 1) kids) ∧
    walkBlock 3 (.parent rich kids) = textOf rich ∧
    walkBlocks 0 (pruneBlocks 3 bs) = walkBlocks 0 bs ∧
    walkBlocks 0 fixture5 = ["L0", "L1", "L2", "L3"] := by
  refine ⟨?_, ?_, ?_, by decide⟩
  · intro h
    have hif : ¬ (d + 1 > 3) := by omega
    simp [walkBlock, if_neg hif]
  · simp [walkBlock]
  · have h := walkBlocks_prune_aux 3 0 (by omega) (by omega) bs
    simpa using h

/-- C4 witness: the depth-bound behaviour at the concrete depth 0 and
on the depth-5 fixture. -/
theorem claim_C4_witness :
    walkBlock 0 (.parent ["R"] [.leaf ["K"]]) =
      textOf ["R"] ++ walkBlocks 1 [.leaf ["K"]] ∧
    walkBlocks 0 (pruneBlocks 3 fixture5) = walkBlocks 0 fixture5 :=
  ⟨(claim_C4 0 ["R"] [.leaf ["K"]] fixture5).1 (by omega),
   (claim_C4 0 ["R"] [.leaf ["K"]] fixture5).2.2.1⟩

/-- C9: document content extraction reports success exactly when the
collected fragment list is non-empty; an empty aggregate is the failure
envelope and a non-empty one is success with the fragments joined by
newlines in document order. -/
theorem claim_C9 (rootFetch : Except Unit (List Block)) :
    ((notion_get_page_content rootFetch).success = true ↔
      pageFragments rootFetch ≠ []) ∧
    (pageFragments rootFetch = [] →
      notion_get_page_content rootFetch = ⟨false, none⟩) ∧
    (pageFragments rootFetch ≠ [] →
      notion_get_page_content rootFetch =
        ⟨true, some (String.intercalate "\n" (pageFragments rootFetch))⟩) := by
  by_cases h : pageFragments rootFetch = [] <;>
    simp [notion_get_page_content, h]

/-- C9 witness: an empty tree fails; the depth-5 fixture succeeds with
its fragments joined by newlines. -/
theorem claim_C9_witness :
    notion_get_page_content (.ok []) = ⟨false, none⟩ ∧
    notion_get_page_content (.ok fixture5) =
      ⟨true, some (String.intercalate "\n" (pageFragments (.ok fixture5)))⟩ :=
  ⟨(claim_C9 (.ok [])).2.1 (by decide),
   (claim_C9 (.ok fixture5)).2.2 (by decide)⟩

/-- C5: embedded-database discovery collects matches pre-order (a
parent's match before its children's, siblings in fetch order) within
the depth bound; with at least one match the result is success with the
first match promoted as the primary result and the full ordered list
retained; with zero matches it is failure with an explanatory
message. -/
theorem claim_C5 (d : Nat) (kind : NKind) (kids : List NBlock) (b : NBlock)
    (rest blocks : List NBlock) (m : DbMatch) (ms : List DbMatch) :
    (d < 3 → findDbsBlock d (.node kind kids) =
      matchOf kind ++ findDbsBlocks (d + 1) kids) ∧
    findDbsBlock 3 (.node kind kids) = matchOf kind ∧
    findDbsBlocks d (b :: rest) = findDbsBlock d b ++ findDbsBlocks d rest ∧
    (findDbsBlocks 0 blocks = m :: ms →
      notion_get_db_from_page (.ok blocks) =
        ⟨true, some m.database_id, some m.title, some m.type,
          some (m :: ms).length, m :: ms, none⟩) ∧
    (findDbsBlocks 0 blocks = [] →
      notion_get_db_from_page (.ok blocks) =
        ⟨false, none, none, none, none, [],
          some "No inline or linked database found in this page"⟩) := by
  refine ⟨?_, ?_, rfl, ?_, ?_⟩
  · intro h
    have hif : ¬ (d + 1 > 3) := by omega
    simp [findDbsBlock, if_neg hif]
  · simp [findDbsBlock]
  · intro h
    simp [notion_get_db_from_page, h]
  · intro h
    simp [notion_get_db_from_page, h]

/-- C5 witness: on the two-database fixture the inline database found
first (parent position) is promoted and both matches are retained in
pre-order; on a matchless tree the failure message is produced. -/
theorem claim_C5_witness :
    notion_get_db_from_page (.ok blocksC5) =
      ⟨true, some "db1", some "Untitled Database", some "child_database",
        some 2,
        [⟨"db1", "Untitled Database", "child_database"⟩,
         ⟨"db2", "Linked Database", "linked_database"⟩], none⟩ ∧
    notion_get_db_from_page (.ok [.nodeNoKids (.plain "p1")]) =
      ⟨false, none, none, none, none, [],
        some "No inline or linked database found in this page"⟩ := by
  constructor
  · have h := (claim_C5 0 (.plain "p1") [] (.nodeNoKids (.plain "p1")) [] blocksC5
      ⟨"db1", "Untitled Database", "child_database"⟩
      [⟨"db2", "Linked Database", "linked_database"⟩]).2.2.2.1 (by decide)
    simpa using h
  · exact (claim_C5 0 (.plain "p1") [] (.nodeNoKids (.plain "p1")) []
      [.nodeNoKids (.plain "p1")] ⟨"", "", ""⟩ []).2.2.2.2 (by decide)

/-- C10: database-row decoding is total (`decodeRow` handles every row
shape), maps a missing or empty `Task`/`Name` title to `"Unknown"`, a
missing or null `Status`/`Feature` select to `"Unknown"`, and the
result's `count` always equals the length of its task list. -/
theorem claim_C10 (rows : List NRow) (row : NRow) :
    (notion_query_database (.ok rows)).count =
      some (notion_query_database (.ok rows)).tasks.length ∧
    (notion_query_database (.ok rows)).tasks = rows.map decodeRow ∧
    ((row.task = none ∨ row.task = some []) →
      (row.name = none ∨ row.name = some []) →
      (decodeRow row).task = "Unknown") ∧
    ((row.status = none ∨ row.status = some none) →
      (decodeRow row).status = "Unknown") ∧
    ((row.feature = none ∨ row.feature = some none) →
      (decodeRow row).feature = "Unknown") := by
  refine ⟨rfl, rfl, ?_, ?_, ?_⟩
  · rintro (h1 | h1) (h2 | h2) <;> simp [decodeRow, h1, h2]
  · rintro (h | h) <;> simp [decodeRow, h]
  · rintro (h | h) <;> simp [decodeRow, h]

/-- C10 witness: the row with absent `Task`, empty `Name` title, null
`Status` select and absent `Feature` decodes to all-`"Unknown"` without
raising, and `count` matches the task list length. -/
theorem claim_C10_witness :
    (notion_query_database (.ok [rowC10])).count =
      some (notion_query_database (.ok [rowC10])).tasks.length ∧
    (decodeRow rowC10).task = "Unknown" ∧
    (decodeRow rowC10).status = "Unknown" ∧
    (decodeRow rowC10).feature = "Unknown" :=
  ⟨(claim_C10 [rowC10] rowC10).1,
   (claim_C10 [rowC10] rowC10).2.2.1 (Or.inl rfl) (Or.inr rfl),
   (claim_C10 [rowC10] rowC10).2.2.2.1 (Or.inr rfl),
   (claim_C10 [rowC10] rowC10).2.2.2.2 (Or.inl rfl)⟩

/-- The directory case of the flattening loop is exactly the recursive
`github_list_repo` call guarded by `sub.get("success")`: a successful
subdirectory splices its items in. -/
theorem flattenEntry_dirOk_eq (path name : String) (entries : List RepoEntry) :
    flattenEntry path (.dirOk name entries) =
      (let sub := github_list_repo (lstripSlash (path ++ "/" ++ name)) (.ok entries)
       if sub.success then sub.items else []) := rfl

/-- The failing-directory case of the flattening loop is exactly the
recursive `github_list_repo` call guarded by `sub.get("success")`: a
failed subdirectory contributes nothing. -/
theorem flattenEntry_dirBad_eq (path name err : String) :
    flattenEntry path (.dirBad name err) =
      (let sub := github_list_repo (lstripSlash (path ++ "/" ++ name)) (.error err)
       if sub.success then sub.items else []) := rfl

/-- C2 counterexample: on a root listing containing a subdirectory
whose fetch fails, the flattening call still reports success and
silently omits that subtree — it does not report overall failure. -/
theorem claim_C2_counterexample :
    (github_list_repo "" repoC2).success = true ∧
    (github_list_repo "" repoC2).items = [⟨"a.txt", "a.txt", "file"⟩] := by
  exact ⟨rfl, by decide⟩

/-- C2 amended: a fetch failure on a subdirectory is silently skipped —
the flattening call reports success with that subtree omitted — and
only a fetch failure on the requested path itself is reported as an
overall failure. -/
theorem claim_C2_amended (path e name err : String)
    (entries rest : List RepoEntry) :
    (github_list_repo path (.ok entries)).success = true ∧
    github_list_repo path (.error e) = ⟨false, some e, []⟩ ∧
    flattenEntries path (.dirBad name err :: rest) = flattenEntries path rest := by
  refine ⟨rfl, rfl, ?_⟩
  simp [flattenEntries, flattenEntry]

/-! ### Run-loop environments for witnesses and counterexamples -/

/-- A tool call whose argument text is not valid JSON. -/
def tcBadArgs : ToolCall := ⟨"call_1", "notion_search", "not json"⟩

/-- An environment whose completion service always requests
`tcBadArgs` and whose `json.loads` oracle rejects its argument text
with the usual decoder message. -/
def envC1 : RunEnv :=
  { completions := fun _ => .reply (some "calling tools") [tcBadArgs],
    decodeArgs := fun _ => .error "Expecting value: line 1 column 1 (char 0)",
    session := fun _ _ => .contents [],
    decodePayload := fun _ => none,
    dumps := fun _ => "" }

/-- An environment whose completion service always raises a transport
failure. -/
def envC8 : RunEnv :=
  { completions := fun _ => .raise "Connection error.",
    decodeArgs := fun _ => .ok [],
    session := fun _ _ => .contents [],
    decodePayload := fun _ => none,
    dumps := fun _ => "" }

/-- A tool call that keeps the loop busy: its arguments decode, but the
session raises, so each iteration appends a failed tool result and
continues. -/
def tcBusy : ToolCall := ⟨"call_2", "github_list_repo", "\x7b\x7d"⟩

/-- An environment that never produces a terminal message: every
completion requests `tcBusy` and every session call raises. -/
def envEx : RunEnv :=
  { completions := fun _ => .reply (some "thinking") [tcBusy],
    decodeArgs := fun _ => .ok [],
    session := fun _ _ => .raise "connection reset",
    decodePayload := fun _ => none,
    dumps := fun _ => "\x7b\x7d" }

/-- The `json.dumps` oracle used by the unknown-tool environment. -/
def dumpsSimple : ToolResult → String :=
  fun r => if r.success then "\x7b\"success\": true\x7d" else "\x7b\"success\": false\x7d"

/-- A tool call naming a tool absent from the registry. -/
def tcUnknown : ToolCall := ⟨"call_9", "mystery_tool", "\x7b\x7d"⟩

/-- An environment whose server hosts an empty handler registry and
whose completion service requests the unregistered `mystery_tool`. -/
def envC7 : RunEnv :=
  { completions := fun _ => .reply none [tcUnknown],
    decodeArgs := fun _ => .ok [],
    session := sessionOf [] dumpsSimple,
    decodePayload := fun _ => none,
    dumps := dumpsSimple }

/-! ### Run-loop helper lemmas -/

theorem trackSources_calls (name : String) (args : Args) (r : ToolResult)
    (st : RunState) : (trackSources name args r st).calls = st.calls := by
  unfold trackSources
  split
  · split
    · rfl
    · split
      · rfl
      · split
        · rfl
        · rfl
  · rfl

/-- A failed tool result records no provenance. -/
theorem trackSources_fail (name : String) (args : Args) (r : ToolResult)
    (st : RunState) (h : r.success = false) :
    trackSources name args r st = st := by
  unfold trackSources
  rw [h]
  simp

/-- A tool name outside the three tracked ones records no provenance,
whatever the result. -/
theorem trackSources_other (name : String) (args : Args) (r : ToolResult)
    (st : RunState) (h1 : name ≠ "notion_get_page_content")
    (h2 : name ≠ "notion_query_database")
    (h3 : name ≠ "github_get_file") :
    trackSources name args r st = st := by
  unfold trackSources
  split_ifs <;> simp_all

/-- Dispatching tool calls never changes the completion-call counter. -/
theorem dispatchCalls_calls (env : RunEnv) :
    ∀ (tcs : List ToolCall) (st st' : RunState),
      dispatchCalls env st tcs = .ok st' → st'.calls = st.calls := by
  intro tcs
  induction tcs with
  | nil =>
    intro st st' h
    simp only [dispatchCalls, Except.ok.injEq] at h
    rw [← h]
  | cons tc rest ih =>
    intro st st' h
    simp only [dispatchCalls] at h
    cases hd : env.decodeArgs tc.arguments with
    | error e => rw [hd] at h; cases h
    | ok args =>
      rw [hd] at h
      rw [ih _ _ h]
      exact trackSources_calls tc.name args _ st

/-- The degraded-sentinel path: whenever a run exits through the
post-loop fallthrough, the returned answer is the fixed sentinel. -/
theorem runFrom_exhausted_answer (env : RunEnv) :
    ∀ (fuel : Nat) (st : RunState),
      (runFrom env st fuel).exitKind = ExitKind.exhausted →
      (runFrom env st fuel).answer = maxItersAnswer := by
  intro fuel
  induction fuel with
  | zero => intro st _; rfl
  | succ fuel ih =>
    intro st h
    simp only [runFrom] at h ⊢
    cases hc : env.completions st.messages with
    | raise e => simp [hc] at h
    | reply content toolCalls =>
      simp only [hc] at h ⊢
      by_cases ht : toolCalls = []
      · simp [ht] at h
      · simp only [if_neg ht] at h ⊢
        cases hd : (dispatchCalls env
            { st with
                calls := st.calls + 1,
                messages := st.messages ++ [.assistant content toolCalls] }
            toolCalls) with
        | error e => simp [hd] at h
        | ok st2 =>
          simp only [hd] at h ⊢
          exact ih st2 h

/-- Each loop iteration makes exactly one completion call, so the
counter is bounded by the remaining fuel. -/
theorem runFrom_calls_le (env : RunEnv) :
    ∀ (fuel : Nat) (st : RunState),
      (runFrom env st fuel).calls ≤ st.calls + fuel := by
  intro fuel
  induction fuel with
  | zero => intro st; exact Nat.le_refl _
  | succ fuel ih =>
    intro st
    simp only [runFrom]
    cases hc : env.completions st.messages with
    | raise e => simp [hc]
    | reply content toolCalls =>
      simp only [hc]
      by_cases ht : toolCalls = []
      · simp [ht]
      · simp only [if_neg ht]
        cases hd : (dispatchCalls env
            { st with
                calls := st.calls + 1,
                messages := st.messages ++ [.assistant content toolCalls] }
            toolCalls) with
        | error e => simp [hd]
        | ok st2 =>
          simp only [hd]
          have h1 := ih st2
          have h2 := dispatchCalls_calls env toolCalls _ st2 hd
          simp only [RunState.calls] at h2
          omega

/-! ### Claims about the run loop -/

/-- C3: the number of completion-service calls never exceeds the
iteration budget, and a run that exhausts the budget without a terminal
message returns the fixed degraded sentinel instead of raising. -/
theorem claim_C3 (env : RunEnv) (query : String) (max_iters : Nat) :
    (MCPAgent.run env query max_iters).calls ≤ max_iters ∧
    ((MCPAgent.run env query max_iters).exitKind = ExitKind.exhausted →
      (MCPAgent.run env query max_iters).answer =
        "❌ Max iterations reached. The analysis may be incomplete.") := by
  constructor
  · have h := runFrom_calls_le env max_iters
      ⟨[.system SYSTEM_PROMPT, .user query], [], [], 0⟩
    simpa [MCPAgent.run] using h
  · exact runFrom_exhausted_answer env max_iters _

/-- C3 witness: a concrete budget-2 run that never sees a terminal
message makes at most 2 completion calls and returns the sentinel. -/
theorem claim_C3_witness :
    (MCPAgent.run envEx "q" 2).calls ≤ 2 ∧
    (MCPAgent.run envEx "q" 2).exitKind = ExitKind.exhausted ∧
    (MCPAgent.run envEx "q" 2).answer =
      "❌ Max iterations reached. The analysis may be incomplete." :=
  ⟨(claim_C3 envEx "q" 2).1, by decide, (claim_C3 envEx "q" 2).2 (by decide)⟩

/-- C1 counterexample: when a dispatched tool invocation's argument
text fails to decode, the run does not continue — it aborts through the
iteration-level handler after a single completion call, returning the
handler's error string; no failed tool result is synthesized and no
further completion call happens. -/
theorem claim_C1_counterexample :
    (MCPAgent.run envC1 "q" 5).exitKind = ExitKind.aborted ∧
    (MCPAgent.run envC1 "q" 5).calls = 1 ∧
    (MCPAgent.run envC1 "q" 5).answer =
      "❌ Error occurred: Expecting value: line 1 column 1 (char 0)" :=
  ⟨by decide, by decide, by decide⟩

/-- C1 amended: a JSON decode failure on the first tool invocation's
argument text raises out of dispatch into the iteration-level handler:
the run aborts immediately, returning `"❌ Error occurred: "` followed
by the decode message, with no tool message appended and no further
completion calls. -/
theorem claim_C1_amended (env : RunEnv) (st : RunState) (fuel : Nat)
    (content : Option String) (tc : ToolCall) (rest : List ToolCall)
    (msg : String)
    (hc : env.completions st.messages = .reply content (tc :: rest))
    (hd : env.decodeArgs tc.arguments = .error msg) :
    runFrom env st (fuel + 1) =
      ⟨"❌ Error occurred: " ++ msg, st.calls + 1, .aborted⟩ := by
  rw [runFrom, hc]
  simp [dispatchCalls, hd, errorAnswer]

/-- C1 amended witness: the abort at a concrete malformed argument
text. -/
theorem claim_C1_amended_witness :
    runFrom envC1 ⟨[], [], [], 0⟩ 3 =
      ⟨"❌ Error occurred: Expecting value: line 1 column 1 (char 0)",
        1, .aborted⟩ :=
  claim_C1_amended envC1 ⟨[], [], [], 0⟩ 2 (some "calling tools")
    tcBadArgs [] "Expecting value: line 1 column 1 (char 0)" rfl rfl

/-- C8 counterexample: a transport failure with message
`"Connection error."` raised while calling the completion driver makes
the run return `"❌ Error occurred: Connection error."` — the message
embedded in a fixed template, not the message verbatim. -/
theorem claim_C8_counterexample :
    (MCPAgent.run envC8 "q" 3).answer ≠ "Connection error." ∧
    (MCPAgent.run envC8 "q" 3).answer = "❌ Error occurred: Connection error." ∧
    (MCPAgent.run envC8 "q" 3).exitKind = ExitKind.aborted :=
  ⟨by decide, by decide, by decide⟩

/-- C8 amended: a transport failure raised while calling the
completion driver aborts the run immediately (one completion call
charged, nothing dispatched, no further iterations) and the returned
answer is the failure's message embedded in the fixed
`"❌ Error occurred: "` template. -/
theorem claim_C8_amended (env : RunEnv) (st : RunState) (fuel : Nat)
    (e : String) (hc : env.completions st.messages = .raise e) :
    runFrom env st (fuel + 1) =
      ⟨"❌ Error occurred: " ++ e, st.calls + 1, .aborted⟩ := by
  rw [runFrom, hc]
  rfl

/-- C8 amended witness: the abort at a concrete transport failure. -/
theorem claim_C8_amended_witness :
    runFrom envC8 ⟨[], [], [], 0⟩ 3 =
      ⟨"❌ Error occurred: Connection error.", 1, .aborted⟩ :=
  claim_C8_amended envC8 ⟨[], [], [], 0⟩ 2 "Connection error." rfl

/-- C7 counterexample: an invocation naming a tool absent from the
registry does not produce the claimed `{success: false, error: ...}`
envelope: the server-side `ValueError` comes back in-band as the text
payload `"Unknown tool: mystery_tool"`, which is not valid JSON, so
`_call`'s decode fallback returns `{success: true, content: "Unknown
tool: mystery_tool"}` — a success envelope with no error field. -/
theorem claim_C7_counterexample :
    MCPAgent.call envC7.session envC7.decodePayload "mystery_tool" [] =
      ⟨true, none, some "Unknown tool: mystery_tool"⟩ ∧
    (MCPAgent.call envC7.session envC7.decodePayload "mystery_tool" []).success
      = true ∧
    (MCPAgent.call envC7.session envC7.decodePayload "mystery_tool" []).error
      = none :=
  ⟨by decide, by decide, by decide⟩

/-- C7 amended: an invocation naming a tool absent from the registry
never crashes the server or the run: the handler's
`Unknown tool: <name>` exception is returned in-band as the reply's
text payload, the agent-side `_call` (which never inspects `isError`)
fails to JSON-decode that text and falls back to the
`{success: true, content: "Unknown tool: <name>"}` envelope, and the
run loop appends it as the tool message and proceeds to the next
iteration (up to the iteration cap). -/
theorem claim_C7_amended (handlers : List (String × (Args → ToolResult)))
    (dumps : ToolResult → String) (env : RunEnv) (tc : ToolCall)
    (args : Args)
    (hname : handlers.lookup tc.name = none)
    (hsession : env.session = sessionOf handlers dumps)
    (hargs : env.decodeArgs tc.arguments = .ok args)
    (hpayload : env.decodePayload ("Unknown tool: " ++ tc.name) = none)
    (hn1 : tc.name ≠ "notion_get_page_content")
    (hn2 : tc.name ≠ "notion_query_database")
    (hn3 : tc.name ≠ "github_get_file") :
    MCPAgent.call env.session env.decodePayload tc.name args =
      ⟨true, none, some ("Unknown tool: " ++ tc.name)⟩ ∧
    (∀ (st : RunState) (fuel : Nat) (content : Option String),
      env.completions st.messages = .reply content [tc] →
      runFrom env st (fuel + 1) =
        runFrom env
          { st with
            calls := st.calls + 1,
            messages := st.messages ++
              [.assistant content [tc],
               .tool tc.id
                 (env.dumps ⟨true, none, some ("Unknown tool: " ++ tc.name)⟩)] }
          fuel) := by
  have hcall : MCPAgent.call env.session env.decodePayload tc.name args =
      ⟨true, none, some ("Unknown tool: " ++ tc.name)⟩ := by
    rw [hsession]
    simp [MCPAgent.call, sessionOf, call_tool, hname, hpayload]
  refine ⟨hcall, ?_⟩
  intro st fuel content hc
  have htrack : ∀ st' : RunState,
      trackSources tc.name args
        ⟨true, none, some ("Unknown tool: " ++ tc.name)⟩ st' = st' :=
    fun st' => trackSources_other tc.name args _ st' hn1 hn2 hn3
  simp only [runFrom, hc]
  simp only [dispatchCalls, hargs, hcall, htrack]
  simp [List.append_assoc]

/-- C7 amended witness: the unknown-tool fallback envelope and loop
continuation at a concrete empty registry. -/
theorem claim_C7_amended_witness :
    MCPAgent.call envC7.session envC7.decodePayload tcUnknown.name [] =
      ⟨true, none, some ("Unknown tool: " ++ tcUnknown.name)⟩ ∧
    runFrom envC7 ⟨[], [], [], 0⟩ 1 =
      runFrom envC7
        { (⟨[], [], [], 0⟩ : RunState) with
          calls := 0 + 1,
          messages := [] ++
            [.assistant none [tcUnknown],
             .tool tcUnknown.id
               (envC7.dumps
                 ⟨true, none, some ("Unknown tool: " ++ tcUnknown.name)⟩)] }
        0 := by
  obtain ⟨h1, h2⟩ := claim_C7_amended [] dumpsSimple envC7 tcUnknown []
    rfl rfl rfl rfl (by decide) (by decide) (by decide)
  exact ⟨h1, h2 ⟨[], [], [], 0⟩ 0 none rfl⟩

/-- C6: on termination, when the final answer already contains the
citation marker `"Based on"` it is returned unchanged; when it lacks
the marker and the provenance sets are `{pages: {"P1"}, files:
{"x.py"}}`, a deterministic footer built from the sorted sets is
appended that mentions `"P1"` and `"x.py"` exactly once each. -/
theorem claim_C6 (answer : String) (pages files : List String) :
    (containsStr answer "Based on" = true →
      appendCitation pages files answer = answer) ∧
    (containsStr answer "Based on" = false →
      ∃ footer : String,
        appendCitation ["P1"] ["x.py"] answer = answer ++ footer ∧
        countOccur footer "P1" = 1 ∧
        countOccur footer "x.py" = 1) := by
  constructor
  · intro h
    simp [appendCitation, h]
  · intro h
    refine ⟨"\n\n**Sources:** " ++
      String.intercalate " | " (buildCitationParts ["P1"] ["x.py"]),
      ?_, by decide, by decide⟩
    have hcond : buildCitationParts ["P1"] ["x.py"] ≠ [] ∧
        containsStr answer "Based on" = false := ⟨by decide, h⟩
    show (if buildCitationParts ["P1"] ["x.py"] ≠ [] ∧
        containsStr answer "Based on" = false then
        answer ++ ("\n\n**Sources:** " ++
          String.intercalate " | " (buildCitationParts ["P1"] ["x.py"]))
      else answer) = _
    rw [if_pos hcond]

/-- C6 witness: a marker-bearing answer is untouched, and a marker-free
answer receives the footer with each identifier mentioned once. -/
theorem claim_C6_witness :
    appendCitation ["P1"] ["x.py"] "It is Based on these." =
      "It is Based on these." ∧
    (∃ footer : String,
      appendCitation ["P1"] ["x.py"] "All checks passed" =
        "All checks passed" ++ footer ∧
      countOccur footer "P1" = 1 ∧
      countOccur footer "x.py" = 1) :=
  ⟨(claim_C6 "It is Based on these." ["P1"] ["x.py"]).1 (by decide),
   (claim_C6 "All checks passed" [] []).2 (by decide)⟩

end NotionGitBridge
